import Mathlib

/-!
Shallow embedding of the incisiveetl repository (Incisive-Dental-Network),
covering the CSV row transform (src/utils/csv-helpers.js), the generic row
processing engine (src/services/csvprocessor.js, method processRows of class
CSVprocessor), the storage gateway (the generic S3Service of the repository,
methods moveToProcessed and uploadLogFile) and the orders file pipeline
(src/etl/processor.js, method processOrdersFile of class ETLProcessor).

JavaScript objects are embedded as association lists in entry order; raw CSV
rows carry string values, mapped rows carry JVal values (string, integer
number, NaN or null).  The Date-derived run timestamp is passed in as a
parameter; numeric string coercion is modelled over integer-valued strings.
-/

set_option autoImplicit false

namespace IncisiveETL

/-- JavaScript values as they occur in this code base: strings coming from
the CSV parser, numbers produced by parseInt or Number, the NaN sentinel of
a failed numeric coercion, and null. -/
inductive JVal where
  | str : String → JVal
  | num : Int → JVal
  | nan : JVal
  | null : JVal
deriving DecidableEq, Repr

/-- A raw CSV row as produced by csv-parser: a JavaScript object, embedded as
an association list from original header text to string value, in entry
order. -/
abbrev RawRow := List (String × String)

/-- A mapped (entity-schema shaped) row: a JavaScript object with JVal
values. -/
abbrev JRow := List (String × JVal)

/-- JavaScript object property write obj[k] = v: if the key is present its
value is updated in place (the entry keeps its position), otherwise the
entry is appended at the end. -/
def setEntry {α : Type} : List (String × α) → String → α → List (String × α)
  | [], k, v => [(k, v)]
  | (k', v') :: rest, k, v =>
      if k' == k then (k', v) :: rest else (k', v') :: setEntry rest k v

/-- JavaScript object property read obj[k]: the value of the (first) entry
with this key, or none for undefined. -/
def assocGet {α : Type} (l : List (String × α)) (k : String) : Option α :=
  (l.find? (fun kv => kv.1 == k)).map (fun kv => kv.2)

/-- Model of String.prototype.toLowerCase restricted to ASCII, which is all
this code base feeds it: code points 65-90 (A-Z) are shifted to 97-122. -/
def jsToLowerChar (c : Char) : Char :=
  if 65 ≤ c.toNat && c.toNat ≤ 90 then Char.ofNat (c.toNat + 32) else c

/-- The ASCII whitespace code points removed by String.prototype.trim:
tab, line feed, vertical tab, form feed, carriage return and space. -/
def isJsSpace (c : Char) : Bool :=
  c.toNat == 32 || c.toNat == 9 || c.toNat == 10 ||
  c.toNat == 13 || c.toNat == 11 || c.toNat == 12

/-- The characters kept by the regular expression replace of
normalizeCSVRow, which deletes every character outside [a-z0-9]. -/
def isLowerAlnumChar (c : Char) : Bool :=
  (97 ≤ c.toNat && c.toNat ≤ 122) || (48 ≤ c.toNat && c.toNat ≤ 57)

/-- String.prototype.trim as a character-list transform. -/
def trimChars (l : List Char) : List Char :=
  ((l.dropWhile isJsSpace).reverse.dropWhile isJsSpace).reverse

/-- The key transform of normalizeCSVRow in src/utils/csv-helpers.js:
key.toLowerCase().trim().replace removing every non [a-z0-9] character. -/
def normalizeKey (k : String) : String :=
  String.mk ((trimChars (k.data.map jsToLowerChar)).filter isLowerAlnumChar)

/-- normalizeCSVRow of src/utils/csv-helpers.js: builds a fresh object and
assigns normalized[normalizedKey] = value for each entry of the row in entry
order (so a later entry whose key collides overwrites the earlier value). -/
def normFold (acc : RawRow) (row : RawRow) : RawRow :=
  row.foldl (fun acc kv => setEntry acc (normalizeKey kv.1) kv.2) acc

def normalizeCSVRow (row : RawRow) : RawRow :=
  normFold [] row

/-- Claim-side characterization used by the collision claim: the value of
the last entry of the row whose normalized key is k. -/
def lastNormValue (row : RawRow) (k : String) : Option String :=
  (row.reverse.find? (fun kv => normalizeKey kv.1 == k)).map (fun kv => kv.2)

/-- Decimal digit test on code points. -/
def isDigitChar (c : Char) : Bool :=
  48 ≤ c.toNat && c.toNat ≤ 57

/-- Value of a list of decimal digit characters. -/
def digitsToNat (l : List Char) : Nat :=
  l.foldl (fun n c => 10 * n + (c.toNat - 48)) 0

/-- Shared tail of parseInt: the value of the leading digit run, or none
(NaN) when there is no leading digit. -/
def parseIntFrom (sign : Int) (r : List Char) : Option Int :=
  let ds := r.takeWhile isDigitChar
  if ds.isEmpty then none else some (sign * (digitsToNat ds : Int))

/-- Model of parseInt(s, 10): skip leading whitespace, optional sign, then
the value of the leading digit run; none stands for NaN. -/
def jsParseInt (s : String) : Option Int :=
  match s.data.dropWhile isJsSpace with
  | '-' :: r => parseIntFrom (-1) r
  | '+' :: r => parseIntFrom 1 r
  | r => parseIntFrom 1 r

/-- Model of Number(s) over integer-valued decimal strings: the whole
trimmed string must be an optionally signed digit run; a trimmed empty
string is 0; anything else is none, standing for NaN.  (Fractional and
exotic numeric literals are outside the inputs this development uses.) -/
def jsNumber (s : String) : Option Int :=
  match trimChars s.data with
  | [] => some 0
  | '-' :: r => if !r.isEmpty && r.all isDigitChar then some (-(digitsToNat r : Int)) else none
  | '+' :: r => if !r.isEmpty && r.all isDigitChar then some ((digitsToNat r : Int)) else none
  | r => if r.all isDigitChar then some ((digitsToNat r : Int)) else none

/-- The pervasive row.key-or-null idiom (row.x || null): undefined and the
empty string are replaced by null, any other string is kept. -/
def strOrNull (row : RawRow) (k : String) : JVal :=
  match assocGet row k with
  | some s => if s == "" then JVal.null else JVal.str s
  | none => JVal.null

/-- The quantity idiom of mapCSVToSchema: row.quantity ? parseInt(...) :
null.  A falsy (absent or empty) source value becomes null; otherwise the
parseInt result, which is NaN (not null) on a non-numeric string. -/
def intOrNull (row : RawRow) (k : String) : JVal :=
  match assocGet row k with
  | some s =>
      if s == "" then JVal.null
      else match jsParseInt s with
        | some n => JVal.num n
        | none => JVal.nan
  | none => JVal.null

/-- The Number idiom of the reference-data map functions:
row.k ? Number(row.k) : null, where the caller then replaces NaN by null. -/
def numberOrNull (row : RawRow) (k : String) : JVal :=
  match assocGet row k with
  | some s =>
      if s == "" then JVal.null
      else match jsNumber s with
        | some n => JVal.num n
        | none => JVal.nan
  | none => JVal.null

/-- The Number.isNaN(x) ? null : x guard applied in the reference-data map
functions. -/
def nanToNull (v : JVal) : JVal :=
  match v with
  | JVal.nan => JVal.null
  | v => v

/-- mapCSVToSchema of src/utils/csv-helpers.js: the orders schema object
literal, in source field order.  quantity is the only coerced field and has
no NaN guard. -/
def mapCSVToSchema (row : RawRow) : JRow :=
  [ ("submissiondate", strOrNull row "submissiondate"),
    ("shippingdate", strOrNull row "shippingdate"),
    ("casedate", strOrNull row "casedate"),
    ("caseid", strOrNull row "caseid"),
    ("productid", strOrNull row "productid"),
    ("productdescription", strOrNull row "productdescription"),
    ("quantity", intOrNull row "quantity"),
    ("productprice", strOrNull row "productprice"),
    ("patientname", strOrNull row "patientname"),
    ("customerid", strOrNull row "customerid"),
    ("customername", strOrNull row "customername"),
    ("address", strOrNull row "address"),
    ("phonenumber", strOrNull row "phonenumber"),
    ("casestatus", strOrNull row "casestatus"),
    ("holdreason", strOrNull row "holdreason"),
    ("estimatecompletedate", strOrNull row "estimatecompletedate"),
    ("requestedreturndate", strOrNull row "requestedreturndate"),
    ("trackingnumber", strOrNull row "trackingnumber"),
    ("estimatedshipdate", strOrNull row "estimatedshipdate"),
    ("holddate", strOrNull row "holddate"),
    ("deliverystatus", strOrNull row "deliverystatus"),
    ("notes", strOrNull row "notes"),
    ("onhold", strOrNull row "onhold"),
    ("shade", strOrNull row "shade"),
    ("mold", strOrNull row "mold"),
    ("doctorpreferences", strOrNull row "doctorpreferences"),
    ("productpreferences", strOrNull row "productpreferences"),
    ("comments", strOrNull row "comments"),
    ("casetotal", strOrNull row "casetotal") ]

/-- mapCSVToLabProductSchema of src/utils/csv-helpers.js: incisive_id is
Number-coerced with an explicit NaN-to-null guard. -/
def mapCSVToLabProductSchema (row : RawRow) : JRow :=
  [ ("incisive_id", nanToNull (numberOrNull row "incisiveid")),
    ("incisive_name", strOrNull row "incisivename"),
    ("category", strOrNull row "category"),
    ("sub_category", strOrNull row "subcategory") ]

/-- Outcome of one Persistence Adapter invocation, abstracting the database:
the insert function resolves with success true, resolves with success false
carrying the reason text the engine extracts from it, or throws.  The engine
samples it by invocation index. -/
inductive InsertOutcome where
  | success : InsertOutcome
  | failure : String → InsertOutcome
  | thrown : String → InsertOutcome
deriving DecidableEq, Repr

/-- The original raw row spread into a remark record ({...row, ...}). -/
def rawToJVal (r : RawRow) : JRow :=
  r.map (fun kv => (kv.1, JVal.str kv.2))

/-- One record of the csvRemark (and missingFieldErrors) artifact.  A
success pushes the mapped row with no annotations; an error pushes the
spread original row plus reason and missingFields properties. -/
structure RemarkRecord where
  fields : JRow
  reason : Option String
  missingFields : Option (List String)
deriving DecidableEq, Repr

/-- The required-field blank test of the engine:
mappedRow[key] === null || === undefined || === ''. -/
def isBlank (v : Option JVal) : Bool :=
  match v with
  | none => true
  | some JVal.null => true
  | some (JVal.str s) => s == ""
  | some _ => false

/-- missingFields = requiredFields.filter(key => blank mappedRow[key]). -/
def requiredMissing (required : List String) (mapped : JRow) : List String :=
  required.filter (fun k => isBlank (assocGet mapped k))

/-- The validation error reason text of the engine. -/
def missingReason (missing : List String) : String :=
  "Missing required fields: " ++ String.intercalate ", " missing

/-- The accumulator of the row loop of CSVprocessor.processRows:
counters, the two record lists, the trace of Persistence Adapter
invocations, and the staging rows inserted inside the open transaction. -/
structure EngineAcc where
  successCount : Nat
  errorCount : Nat
  missingFieldErrors : List RemarkRecord
  csvRemark : List RemarkRecord
  adapterCalls : List JRow
  stageTx : List JRow
deriving DecidableEq, Repr

def EngineAcc.init : EngineAcc := ⟨0, 0, [], [], [], []⟩

/-- The body of the row loop of CSVprocessor.processRows: normalize, map,
validate required fields, then either record a validation error without
touching the adapter, or invoke the adapter exactly once and record its
outcome.  (The batch subdivision of the source loop only drives logging; the
rows are visited one by one in input order exactly as here.) -/
def processRow (oracle : Nat → InsertOutcome) (required : List String)
    (mapFunction : RawRow → JRow) (acc : EngineAcc) (row : RawRow) : EngineAcc :=
  let normalizedRow := normalizeCSVRow row
  let mappedRow := mapFunction normalizedRow
  let missingFields := requiredMissing required mappedRow
  if missingFields.length > 0 then
    let errorDetail : RemarkRecord :=
      ⟨rawToJVal row, some (missingReason missingFields), some missingFields⟩
    { acc with
      errorCount := acc.errorCount + 1,
      missingFieldErrors := acc.missingFieldErrors ++ [errorDetail],
      csvRemark := acc.csvRemark ++ [errorDetail] }
  else
    match oracle acc.adapterCalls.length with
    | InsertOutcome.success =>
        { acc with
          successCount := acc.successCount + 1,
          csvRemark := acc.csvRemark ++ [⟨mappedRow, none, none⟩],
          adapterCalls := acc.adapterCalls ++ [mappedRow],
          stageTx := acc.stageTx ++ [mappedRow] }
    | InsertOutcome.failure reason =>
        let errorDetail : RemarkRecord := ⟨rawToJVal row, some reason, some []⟩
        { acc with
          errorCount := acc.errorCount + 1,
          csvRemark := acc.csvRemark ++ [errorDetail],
          missingFieldErrors := acc.missingFieldErrors ++ [errorDetail],
          adapterCalls := acc.adapterCalls ++ [mappedRow] }
    | InsertOutcome.thrown msg =>
        let errorDetail : RemarkRecord := ⟨rawToJVal row, some msg, some []⟩
        { acc with
          errorCount := acc.errorCount + 1,
          missingFieldErrors := acc.missingFieldErrors ++ [errorDetail],
          csvRemark := acc.csvRemark ++ [errorDetail],
          adapterCalls := acc.adapterCalls ++ [mappedRow] }

def processRowsFrom (oracle : Nat → InsertOutcome) (required : List String)
    (mapFunction : RawRow → JRow) (acc : EngineAcc) (rows : List RawRow) : EngineAcc :=
  rows.foldl (processRow oracle required mapFunction) acc

/-- CSVprocessor.processRows for one file: BEGIN, optional truncate and the
COMMIT are handled by the caller model; this is the accumulated row loop. -/
def processRows (oracle : Nat → InsertOutcome) (required : List String)
    (mapFunction : RawRow → JRow) (rows : List RawRow) : EngineAcc :=
  processRowsFrom oracle required mapFunction EngineAcc.init rows

/-- Claim-side predicate: the remark record rec is the one the engine
derives from input row: the mapped row for a success, or the spread
original row with reason and missing-field annotations for an error. -/
def rowRecordOf (_required : List String) (mapFunction : RawRow → JRow)
    (row : RawRow) (rec : RemarkRecord) : Prop :=
  rec = ⟨mapFunction (normalizeCSVRow row), none, none⟩ ∨
  ∃ reason mf, rec = ⟨rawToJVal row, some reason, some mf⟩

/-- Contents of an object in the storage model: a source CSV object carrying
its parsed rows, or an uploaded remark artifact.  The CSV codec itself is
abstracted away; fetching a non-CSV object parses to no rows. -/
inductive S3Content where
  | csv : List RawRow → S3Content
  | remark : List RemarkRecord → S3Content
deriving DecidableEq, Repr

def parseModel : S3Content → List RawRow
  | S3Content.csv rows => rows
  | S3Content.remark _ => []

/-- The three storage path roles of one pipeline. -/
structure Paths where
  source : String
  processed : String
  logs : String
deriving DecidableEq, Repr

/-- State touched by the orders pipeline: the object store and the committed
contents of the orders_stage table. -/
structure OrdersWorld where
  s3 : List (String × S3Content)
  stage : List JRow
deriving DecidableEq, Repr

/-- Key prefix test of the object store listing (character-wise, matching
the byte-prefix semantics of ListObjectsV2). -/
def strStartsWith (s key : String) : Bool :=
  List.isPrefixOf key.data s.data

/-- S3Service.checkFileExists: ListObjectsV2 with Prefix sourcePath +
fileName, MaxKeys 1 — true when some key has that prefix. -/
def checkFileExists (s3 : List (String × S3Content)) (key : String) : Bool :=
  s3.any (fun kv => strStartsWith kv.1 key)

/-- Equality on Except results is decidable componentwise. -/
instance exceptDecEq {ε α : Type} [DecidableEq ε] [DecidableEq α] :
    DecidableEq (Except ε α) := fun x y =>
  match x, y with
  | Except.ok a, Except.ok b =>
      if h : a = b then isTrue (by rw [h])
      else isFalse (fun hc => h (Except.ok.inj hc))
  | Except.error a, Except.error b =>
      if h : a = b then isTrue (by rw [h])
      else isFalse (fun hc => h (Except.error.inj hc))
  | Except.ok _, Except.error _ => isFalse (fun hc => Except.noConfusion hc)
  | Except.error _, Except.ok _ => isFalse (fun hc => Except.noConfusion hc)

/-- The generic S3Service moveToProcessed: copy the source object to
processedPath + timestamp + "_" + fileName, then delete the original (the
DeleteObjectCommand is executed in this service). -/
def moveToProcessed (ts : String) (p : Paths) (fileName : String)
    (s3 : List (String × S3Content)) :
    Except String (String × List (String × S3Content)) :=
  let sourceKey := p.source ++ fileName
  let destKey := p.processed ++ ts ++ "_" ++ fileName
  match assocGet s3 sourceKey with
  | none => Except.error "NoSuchKey"
  | some content =>
      let afterCopy := setEntry s3 destKey content
      let afterDelete := afterCopy.filter (fun kv => !(kv.1 == sourceKey))
      Except.ok (destKey, afterDelete)

/-- The generic S3Service uploadLogFile: put the remark artifact at
logsPath + fileName + "_" + timestamp. -/
def uploadLogFile (ts : String) (p : Paths) (fileName : String)
    (records : List RemarkRecord) (s3 : List (String × S3Content)) :
    List (String × S3Content) :=
  setEntry s3 (p.logs ++ fileName ++ "_" ++ ts) (S3Content.remark records)

/-- The subset of the processOrdersFile return object the claims speak
about (duration, processedAt and the error list are omitted). -/
structure FileResult where
  success : Bool
  rowCount : Nat
  successCount : Nat
  errorCount : Nat
  skipped : Bool
deriving DecidableEq, Repr

def ordersRequired : List String :=
  ["submissiondate", "casedate", "caseid", "productid", "quantity", "customerid"]

/-- ETLProcessor.processOrdersFile: existence check, fetch and parse, the
empty-file short circuit, the truncate-and-load row loop (whose transaction
is committed at the end of CSVprocessor.processRows, before the merge), the
merge procedure on a separate pooled connection, the move to processed, and
the conditional remark upload.  mergeFails abstracts the outcome of the
opaque merge_orders_stage procedure; ts is the run timestamp. -/
def processOrdersFile (oracle : Nat → InsertOutcome) (mergeFails : Bool)
    (ts : String) (p : Paths) (fileName : String) (w : OrdersWorld) :
    Except String FileResult × OrdersWorld :=
  let sourceKey := p.source ++ fileName
  if !(checkFileExists w.s3 sourceKey) then
    (Except.error ("File not found: " ++ fileName), w)
  else
    match assocGet w.s3 sourceKey with
    | none => (Except.error "NoSuchKey", w)
    | some content =>
        let rows := parseModel content
        if rows.length == 0 then
          (Except.ok ⟨true, 0, 0, 0, true⟩, w)
        else
          let acc := processRows oracle ordersRequired mapCSVToSchema rows
          let w1 : OrdersWorld := ⟨w.s3, acc.stageTx⟩
          if mergeFails then
            (Except.error "merge failed", w1)
          else
            match moveToProcessed ts p fileName w1.s3 with
            | Except.error e => (Except.error e, w1)
            | Except.ok (_, s3Moved) =>
                let result : FileResult :=
                  ⟨true, rows.length, acc.successCount, acc.errorCount, false⟩
                if acc.errorCount > 0 then
                  (Except.ok result, ⟨uploadLogFile ts p fileName acc.csvRemark s3Moved, w1.stage⟩)
                else
                  (Except.ok result, ⟨s3Moved, w1.stage⟩)

/-- An adapter oracle in which every insert resolves successfully. -/
def oracleOk : Nat → InsertOutcome := fun _ => InsertOutcome.success

/-- A complete, valid orders row (every required field present). -/
def rowA : RawRow :=
  [("SubmissionDate", "1/1/2024"), ("CaseDate", "1/2/2024"), ("CaseId", "10"),
   ("ProductId", "P1"), ("Quantity", "2"), ("CustomerId", "C1")]

/-- A second valid orders row. -/
def rowB : RawRow :=
  [("SubmissionDate", "1/3/2024"), ("CaseDate", "1/4/2024"), ("CaseId", "11"),
   ("ProductId", "P2"), ("Quantity", "1"), ("CustomerId", "C2")]

/-- An orders row with the required caseid column blank. -/
def rowNoCase : RawRow :=
  [("SubmissionDate", "1/1/2024"), ("CaseDate", "1/2/2024"), ("CaseId", ""),
   ("ProductId", "P1"), ("Quantity", "2"), ("CustomerId", "C1")]

/-- An orders row whose quantity is a non-empty non-numeric string. -/
def rowNanQty : RawRow :=
  [("SubmissionDate", "1/1/2024"), ("CaseDate", "1/2/2024"), ("CaseId", "10"),
   ("ProductId", "P1"), ("Quantity", "abc"), ("CustomerId", "C1")]

/-- A lab product row whose incisive id is the same non-numeric string. -/
def labRowAbc : RawRow :=
  [("IncisiveId", "abc"), ("IncisiveName", "Crown"), ("Category", "Fixed")]

/-- Concrete path prefixes for the orders pipeline. -/
def pathsA : Paths := ⟨"orders/", "orders/processed/", "orders/logs/"⟩

/-- A store holding one source object with two valid rows. -/
def worldTwoRows : OrdersWorld :=
  ⟨[("orders/a.csv", S3Content.csv [rowA, rowB])], []⟩

/-- A store holding one empty source CSV. -/
def worldEmptyCsv : OrdersWorld :=
  ⟨[("orders/a.csv", S3Content.csv [])], []⟩

/-- A store holding one source object with one valid row and one row whose
required caseid is blank. -/
def worldOneBad : OrdersWorld :=
  ⟨[("orders/a.csv", S3Content.csv [rowA, rowNoCase])], []⟩

/-! Helper lemmas about the JavaScript object primitives. -/

theorem assocGet_setEntry_self {α : Type} (l : List (String × α)) (k : String) (v : α) :
    assocGet (setEntry l k v) k = some v := by
  induction l with
  | nil => simp [setEntry, assocGet, List.find?]
  | cons hd tl ih =>
      by_cases h : hd.1 = k
      · simp [setEntry, assocGet, List.find?, h]
      · have hb : (hd.1 == k) = false := by simp [h]
        simp only [setEntry, hb, Bool.false_eq_true, if_false]
        simpa [assocGet, List.find?, hb] using ih

theorem assocGet_setEntry_ne {α : Type} (l : List (String × α)) (k k' : String) (v : α)
    (h : k' ≠ k) : assocGet (setEntry l k v) k' = assocGet l k' := by
  have hkk : (k == k') = false := by
    simp only [beq_eq_false_iff_ne, ne_eq]
    exact fun hc => h hc.symm
  induction l with
  | nil => simp [setEntry, assocGet, List.find?, hkk]
  | cons hd tl ih =>
      by_cases hh : hd.1 = k
      · have hb : (hd.1 == k') = false := by
          simp only [beq_eq_false_iff_ne, ne_eq, hh]
          exact fun hc => h hc.symm
        simp [setEntry, assocGet, List.find?, hh, hb, hkk]
      · have hb : (hd.1 == k) = false := by simp [hh]
        by_cases hk : hd.1 = k'
        · have hb2 : (hd.1 == k') = true := beq_iff_eq.mpr hk
          simp only [setEntry, hb, Bool.false_eq_true, if_false]
          simp [assocGet, List.find?, hb2]
        · have hb' : (hd.1 == k') = false := by simp [hk]
          simp only [setEntry, hb, Bool.false_eq_true, if_false]
          simpa [assocGet, List.find?, hb'] using ih

theorem assocGet_filter_none {α : Type} (l : List (String × α)) (k : String)
    (q : String × α → Bool) (h : assocGet l k = none) :
    assocGet (l.filter q) k = none := by
  induction l with
  | nil => simp [assocGet]
  | cons hd tl ih =>
      by_cases hk : hd.1 = k
      · exfalso
        simp [assocGet, List.find?, hk] at h
      · have hb : (hd.1 == k) = false := by simp [hk]
        have h' : assocGet tl k = none := by simpa [assocGet, List.find?, hb] using h
        by_cases hq : q hd = true
        · simpa [List.filter, hq, assocGet, List.find?, hb] using ih h'
        · simp only [Bool.not_eq_true] at hq
          simpa [List.filter, hq] using ih h'

theorem keys_setEntry {α : Type} (l : List (String × α)) (k : String) (v : α) :
    (setEntry l k v).map Prod.fst =
      if k ∈ l.map Prod.fst then l.map Prod.fst else l.map Prod.fst ++ [k] := by
  induction l with
  | nil => simp [setEntry]
  | cons hd tl ih =>
      by_cases h : hd.1 = k
      · simp [setEntry, h]
      · have hb : (hd.1 == k) = false := by simp [h]
        have hne : ¬(k = hd.1) := fun hc => h hc.symm
        by_cases hmem : k ∈ tl.map Prod.fst
        · simp [setEntry, hb, ih, hmem, hne]
        · simp [setEntry, hb, ih, hmem, hne]

theorem setEntry_not_mem {α : Type} (l : List (String × α)) (k : String) (v : α)
    (h : k ∉ l.map Prod.fst) : setEntry l k v = l ++ [(k, v)] := by
  induction l with
  | nil => simp [setEntry]
  | cons hd tl ih =>
      have h1 : ¬(k = hd.1) := fun hc => h (by simp [hc])
      have hb : (hd.1 == k) = false := by
        simp only [beq_eq_false_iff_ne, ne_eq]
        exact fun hc => h1 hc.symm
      have h2 : k ∉ tl.map Prod.fst := fun hc => h (by simp [hc])
      simp [setEntry, hb, ih h2]

/-! Helper lemmas for header normalization. -/

theorem jsToLowerChar_fixed (c : Char) (h : isLowerAlnumChar c = true) :
    jsToLowerChar c = c := by
  have hcond : (65 ≤ c.toNat && c.toNat ≤ 90) = false := by
    simp only [isLowerAlnumChar, Bool.or_eq_true, Bool.and_eq_true, decide_eq_true_eq] at h
    simp only [Bool.and_eq_false_iff, decide_eq_false_iff_not, not_le]
    omega
  simp [jsToLowerChar, hcond]

theorem alnum_not_space (c : Char) (h : isLowerAlnumChar c = true) :
    isJsSpace c = false := by
  simp only [isLowerAlnumChar, Bool.or_eq_true, Bool.and_eq_true, decide_eq_true_eq] at h
  simp only [isJsSpace, Bool.or_eq_false_iff, beq_eq_false_iff_ne, ne_eq]
  omega

theorem map_jsToLowerChar_id (l : List Char) (h : ∀ c ∈ l, isLowerAlnumChar c = true) :
    l.map jsToLowerChar = l := by
  induction l with
  | nil => rfl
  | cons hd tl ih =>
      simp [jsToLowerChar_fixed hd (h hd (by simp)),
        ih (fun c hc => h c (by simp [hc]))]

theorem dropWhile_eq_self_of_none (p : Char → Bool) (l : List Char)
    (h : ∀ c ∈ l, p c = false) : l.dropWhile p = l := by
  cases l with
  | nil => rfl
  | cons hd tl => simp [List.dropWhile_cons, h hd (by simp)]

theorem trimChars_eq_self (l : List Char) (h : ∀ c ∈ l, isLowerAlnumChar c = true) :
    trimChars l = l := by
  have h1 : l.dropWhile isJsSpace = l :=
    dropWhile_eq_self_of_none _ _ (fun c hc => alnum_not_space c (h c hc))
  have h2 : l.reverse.dropWhile isJsSpace = l.reverse :=
    dropWhile_eq_self_of_none _ _
      (fun c hc => alnum_not_space c (h c (List.mem_reverse.mp hc)))
  simp [trimChars, h1, h2]

theorem normalizeKey_chars (k : String) :
    ∀ c ∈ (normalizeKey k).data, isLowerAlnumChar c = true := by
  intro c hc
  have : c ∈ (trimChars (k.data.map jsToLowerChar)).filter isLowerAlnumChar := hc
  exact (List.mem_filter.mp this).2

theorem normalizeKey_idem (k : String) :
    normalizeKey (normalizeKey k) = normalizeKey k := by
  have hall := normalizeKey_chars k
  have h1 : (normalizeKey k).data.map jsToLowerChar = (normalizeKey k).data :=
    map_jsToLowerChar_id _ hall
  have h2 : trimChars (normalizeKey k).data = (normalizeKey k).data :=
    trimChars_eq_self _ hall
  have h3 : (normalizeKey k).data.filter isLowerAlnumChar = (normalizeKey k).data :=
    List.filter_eq_self.mpr hall
  show String.mk ((trimChars ((normalizeKey k).data.map jsToLowerChar)).filter isLowerAlnumChar)
      = normalizeKey k
  rw [h1, h2, h3]

theorem normFold_cons (acc : RawRow) (k : String) (v : String) (r : RawRow) :
    normFold acc ((k, v) :: r) = normFold (setEntry acc (normalizeKey k) v) r := rfl

/-- Invariant of the normalization fold: keys stay fixed points of
normalizeKey and stay pairwise distinct. -/
theorem normFold_inv (r : RawRow) : ∀ acc : RawRow,
    (∀ k ∈ acc.map Prod.fst, normalizeKey k = k) → (acc.map Prod.fst).Nodup →
    (∀ k ∈ (normFold acc r).map Prod.fst, normalizeKey k = k) ∧
      ((normFold acc r).map Prod.fst).Nodup := by
  induction r with
  | nil => intro acc h1 h2; exact ⟨h1, h2⟩
  | cons hd tl ih =>
      intro acc h1 h2
      rw [show (hd :: tl) = ((hd.1, hd.2) :: tl) from rfl, normFold_cons]
      have hkeys := keys_setEntry acc (normalizeKey hd.1) hd.2
      by_cases hmem : normalizeKey hd.1 ∈ acc.map Prod.fst
      · rw [if_pos hmem] at hkeys
        exact ih _ (by rw [hkeys]; exact h1) (by rw [hkeys]; exact h2)
      · rw [if_neg hmem] at hkeys
        refine ih _ ?_ ?_
        · rw [hkeys]
          intro k hk
          rcases List.mem_append.mp hk with hk | hk
          · exact h1 k hk
          · have : k = normalizeKey hd.1 := by simpa using hk
            rw [this]
            exact normalizeKey_idem hd.1
        · rw [hkeys]
          exact List.Nodup.append h2 (List.nodup_singleton _)
            (by simpa [List.disjoint_singleton] using hmem)

/-- Folding entries whose keys are already normalized and pairwise fresh
just appends them. -/
theorem normFold_fixed_append : ∀ (l acc : RawRow),
    (∀ k ∈ l.map Prod.fst, normalizeKey k = k) →
    ((acc.map Prod.fst) ++ (l.map Prod.fst)).Nodup →
    normFold acc l = acc ++ l := by
  intro l
  induction l with
  | nil => intro acc _ _; simp [normFold]
  | cons hd tl ih =>
      intro acc hfix hnd
      have hfix0 : normalizeKey hd.1 = hd.1 := hfix hd.1 (by simp)
      have hnotin : hd.1 ∉ acc.map Prod.fst := by
        have hd1 : List.Disjoint (acc.map Prod.fst) ((hd :: tl).map Prod.fst) :=
          (List.nodup_append.mp hnd).2.2
        intro hc
        exact hd1 hc (by simp)
      rw [show (hd :: tl) = ((hd.1, hd.2) :: tl) from rfl, normFold_cons, hfix0,
        setEntry_not_mem acc hd.1 hd.2 hnotin]
      have hnd' : (((acc ++ [(hd.1, hd.2)]).map Prod.fst) ++ tl.map Prod.fst).Nodup := by
        have : ((acc ++ [(hd.1, hd.2)]).map Prod.fst) ++ tl.map Prod.fst
            = acc.map Prod.fst ++ ((hd :: tl).map Prod.fst) := by
          simp
        rw [this]
        exact hnd
      rw [ih (acc ++ [(hd.1, hd.2)]) (fun k hk => hfix k (by simp [hk])) hnd']
      simp

/-- C5. Header normalization is idempotent: for every row r,
normalize(normalize(r)) equals normalize(r), and the key transformation
(lowercase, trim, strip non-alphanumerics) applied to an already-normalized
key returns it unchanged. -/
theorem c5_normalize_idempotent (r : RawRow) (k : String) :
    normalizeCSVRow (normalizeCSVRow r) = normalizeCSVRow r ∧
    normalizeKey (normalizeKey k) = normalizeKey k := by
  constructor
  · have hinv := normFold_inv r [] (by simp) (by simp)
    show normFold [] (normalizeCSVRow r) = normalizeCSVRow r
    have := normFold_fixed_append (normalizeCSVRow r) [] hinv.1 (by simpa using hinv.2)
    simpa using this
  · exact normalizeKey_idem k

/-- The lookup over the normalization fold resolves to the last colliding
entry, falling back to the accumulator. -/
theorem assocGet_normFold : ∀ (l acc : RawRow) (k : String),
    assocGet (normFold acc l) k =
      ((l.reverse.find? (fun kv => normalizeKey kv.1 == k)).map (fun kv => kv.2)).or
        (assocGet acc k) := by
  intro l
  induction l with
  | nil => intro acc k; simp [normFold]
  | cons hd tl ih =>
      intro acc k
      rw [show (hd :: tl) = ((hd.1, hd.2) :: tl) from rfl, normFold_cons, ih]
      rw [show ((hd.1, hd.2) :: tl).reverse = tl.reverse ++ [(hd.1, hd.2)] by simp]
      rw [List.find?_append]
      cases hfnd : tl.reverse.find? (fun kv => normalizeKey kv.1 == k) with
      | some kv => simp [hfnd]
      | none =>
          simp only [hfnd, Option.none_or, Option.map]
          by_cases hk : normalizeKey hd.1 = k
          · rw [hk, assocGet_setEntry_self]
            have hb2 : (normalizeKey hd.1 == k) = true := beq_iff_eq.mpr hk
            simp [List.find?, hb2]
          · have hb : (normalizeKey hd.1 == k) = false := by simp [hk]
            simp [List.find?, hb, assocGet_setEntry_ne acc (normalizeKey hd.1) k hd.2
              (fun hc => hk hc.symm)]

/-- C10. When two distinct raw headers of one row normalize to the same
key, the later entry wins: for every row and key, the normalized object's
value at that key is the value of the last entry whose header normalizes to
it, and the normalized object's keys are pairwise distinct, so each
normalized key maps to exactly one value. -/
theorem c10_normalize_collision_last_wins (r : RawRow) (k : String) :
    assocGet (normalizeCSVRow r) k = lastNormValue r k ∧
    ((normalizeCSVRow r).map Prod.fst).Nodup := by
  constructor
  · have h := assocGet_normFold r [] k
    simpa [lastNormValue, assocGet] using h
  · exact (normFold_inv r [] (by simp) (by simp)).2

/-! Helper lemmas about the row processing engine. -/

theorem processRow_step (o : Nat → InsertOutcome) (req : List String) (mF : RawRow → JRow)
    (acc : EngineAcc) (row : RawRow) :
    ∃ rec : RemarkRecord,
      (processRow o req mF acc row).csvRemark = acc.csvRemark ++ [rec] ∧
      rowRecordOf req mF row rec := by
  by_cases hm : (requiredMissing req (mF (normalizeCSVRow row))).length > 0
  · exact ⟨⟨rawToJVal row,
      some (missingReason (requiredMissing req (mF (normalizeCSVRow row)))),
      some (requiredMissing req (mF (normalizeCSVRow row)))⟩,
      by simp [processRow, hm], Or.inr ⟨_, _, rfl⟩⟩
  · cases ho : o acc.adapterCalls.length with
    | success =>
        exact ⟨⟨mF (normalizeCSVRow row), none, none⟩,
          by simp [processRow, hm, ho], Or.inl rfl⟩
    | failure reason =>
        exact ⟨⟨rawToJVal row, some reason, some []⟩,
          by simp [processRow, hm, ho], Or.inr ⟨reason, [], rfl⟩⟩
    | thrown msg =>
        exact ⟨⟨rawToJVal row, some msg, some []⟩,
          by simp [processRow, hm, ho], Or.inr ⟨msg, [], rfl⟩⟩

theorem processRow_counts (o : Nat → InsertOutcome) (req : List String) (mF : RawRow → JRow)
    (acc : EngineAcc) (row : RawRow) :
    (processRow o req mF acc row).successCount + (processRow o req mF acc row).errorCount
      = acc.successCount + acc.errorCount + 1 := by
  by_cases hm : (requiredMissing req (mF (normalizeCSVRow row))).length > 0
  · simp [processRow, hm]; omega
  · cases ho : o acc.adapterCalls.length <;> simp [processRow, hm, ho] <;> omega

theorem processRowsFrom_cons (o : Nat → InsertOutcome) (req : List String)
    (mF : RawRow → JRow) (acc : EngineAcc) (row : RawRow) (rows : List RawRow) :
    processRowsFrom o req mF acc (row :: rows)
      = processRowsFrom o req mF (processRow o req mF acc row) rows := rfl

theorem processRowsFrom_counts (o : Nat → InsertOutcome) (req : List String)
    (mF : RawRow → JRow) : ∀ (rows : List RawRow) (acc : EngineAcc),
    (processRowsFrom o req mF acc rows).successCount
        + (processRowsFrom o req mF acc rows).errorCount
      = acc.successCount + acc.errorCount + rows.length := by
  intro rows
  induction rows with
  | nil => intro acc; simp [processRowsFrom]
  | cons r rows ih =>
      intro acc
      rw [processRowsFrom_cons, ih]
      have h := processRow_counts o req mF acc r
      simp only [List.length_cons]
      omega

theorem processRowsFrom_remark (o : Nat → InsertOutcome) (req : List String)
    (mF : RawRow → JRow) : ∀ (rows : List RawRow) (acc : EngineAcc),
    ∃ recs : List RemarkRecord,
      (processRowsFrom o req mF acc rows).csvRemark = acc.csvRemark ++ recs ∧
      List.Forall₂ (rowRecordOf req mF) rows recs := by
  intro rows
  induction rows with
  | nil => intro acc; exact ⟨[], by simp [processRowsFrom], List.Forall₂.nil⟩
  | cons r rows ih =>
      intro acc
      obtain ⟨rec, h1, h2⟩ := processRow_step o req mF acc r
      obtain ⟨recs, h3, h4⟩ := ih (processRow o req mF acc r)
      refine ⟨rec :: recs, ?_, List.Forall₂.cons h2 h4⟩
      rw [processRowsFrom_cons, h3, h1]
      simp

/-- C3. For every non-empty input row list, the engine produces exactly one
outcome record per input row: successCount + errorCount equals the number
of rows, the remark record list has the same length as the input, and its
records correspond to the input rows positionally, in input order. -/
theorem c3_engine_one_outcome_per_row (o : Nat → InsertOutcome) (req : List String)
    (mF : RawRow → JRow) (rows : List RawRow) (_hne : rows ≠ []) :
    (processRows o req mF rows).successCount + (processRows o req mF rows).errorCount
      = rows.length ∧
    (processRows o req mF rows).csvRemark.length = rows.length ∧
    List.Forall₂ (rowRecordOf req mF) rows (processRows o req mF rows).csvRemark := by
  obtain ⟨recs, h1, h2⟩ := processRowsFrom_remark o req mF rows EngineAcc.init
  have hc := processRowsFrom_counts o req mF rows EngineAcc.init
  have hr : (processRows o req mF rows).csvRemark = recs := by
    simpa [processRows, EngineAcc.init] using h1
  refine ⟨by simpa [processRows, EngineAcc.init] using hc, ?_, ?_⟩
  · rw [hr]
    exact h2.length_eq.symm
  · rw [hr]
    exact h2

/-- Witness for C3 at the one-row file [rowA]. -/
theorem c3_engine_one_outcome_per_row_witness :
    [rowA] ≠ [] ∧
    ((processRows oracleOk ordersRequired mapCSVToSchema [rowA]).successCount
          + (processRows oracleOk ordersRequired mapCSVToSchema [rowA]).errorCount
        = [rowA].length ∧
      (processRows oracleOk ordersRequired mapCSVToSchema [rowA]).csvRemark.length
        = [rowA].length ∧
      List.Forall₂ (rowRecordOf ordersRequired mapCSVToSchema) [rowA]
        (processRows oracleOk ordersRequired mapCSVToSchema [rowA]).csvRemark) :=
  ⟨by decide,
    c3_engine_one_outcome_per_row oracleOk ordersRequired mapCSVToSchema [rowA] (by decide)⟩

/-- C4. Per row, the Persistence Adapter is invoked exactly once when every
required field of the mapped row is non-blank, and not at all otherwise; in
the latter case the engine records a validation-error remark whose
missing-field list is exactly the blank required fields (so it contains
each missing one) and whose reason text names them; membership in the
missing list characterizes exactly the blank required fields. -/
theorem c4_adapter_called_iff_required_present (o : Nat → InsertOutcome) (req : List String)
    (mF : RawRow → JRow) (acc : EngineAcc) (row : RawRow) (mapped : JRow)
    (missing : List String)
    (hmap : mapped = mF (normalizeCSVRow row))
    (hmiss : missing = requiredMissing req mapped) :
    (missing = [] →
      (processRow o req mF acc row).adapterCalls = acc.adapterCalls ++ [mapped]) ∧
    (missing ≠ [] →
      (processRow o req mF acc row).adapterCalls = acc.adapterCalls ∧
      (processRow o req mF acc row).csvRemark =
        acc.csvRemark ++ [⟨rawToJVal row, some (missingReason missing), some missing⟩]) ∧
    (∀ k, k ∈ missing ↔ (k ∈ req ∧ isBlank (assocGet mapped k) = true)) := by
  subst hmap
  subst hmiss
  refine ⟨?_, ?_, ?_⟩
  · intro h0
    have hm : ¬((requiredMissing req (mF (normalizeCSVRow row))).length > 0) := by
      simp [h0]
    cases ho : o acc.adapterCalls.length <;> simp [processRow, hm, ho]
  · intro h0
    have hm : (requiredMissing req (mF (normalizeCSVRow row))).length > 0 :=
      List.length_pos.mpr h0
    exact ⟨by simp [processRow, hm], by simp [processRow, hm]⟩
  · intro k
    simp [requiredMissing, List.mem_filter]

/-- Witness for C4 at the row with blank caseid. -/
theorem c4_adapter_called_iff_required_present_witness :
    ((["caseid"] : List String) = [] →
      (processRow oracleOk ordersRequired mapCSVToSchema EngineAcc.init rowNoCase).adapterCalls
        = EngineAcc.init.adapterCalls ++ [mapCSVToSchema (normalizeCSVRow rowNoCase)]) ∧
    ((["caseid"] : List String) ≠ [] →
      (processRow oracleOk ordersRequired mapCSVToSchema EngineAcc.init rowNoCase).adapterCalls
        = EngineAcc.init.adapterCalls ∧
      (processRow oracleOk ordersRequired mapCSVToSchema EngineAcc.init rowNoCase).csvRemark
        = EngineAcc.init.csvRemark ++
          [⟨rawToJVal rowNoCase, some (missingReason ["caseid"]), some ["caseid"]⟩]) ∧
    (∀ k, k ∈ (["caseid"] : List String) ↔
      (k ∈ ordersRequired ∧
        isBlank (assocGet (mapCSVToSchema (normalizeCSVRow rowNoCase)) k) = true)) :=
  c4_adapter_called_iff_required_present oracleOk ordersRequired mapCSVToSchema
    EngineAcc.init rowNoCase (mapCSVToSchema (normalizeCSVRow rowNoCase)) ["caseid"]
    rfl (by decide)

/-- C8 counterexample: at the valid one-row file [rowA], with a successful
insert, the remark record of the successfully persisted row is not the
unchanged input row (its fields are the mapped row, whose keys and values
differ from the raw input). -/
theorem c8_success_record_not_raw_row :
    (processRows oracleOk ordersRequired mapCSVToSchema [rowA]).csvRemark.map
        RemarkRecord.fields
      ≠ [rawToJVal rowA] := by decide

/-- C8 as amended: the engine appends exactly one remark record per row;
for a successfully persisted row that record is the mapped row (after
normalization and schema mapping), not the raw input; for any error row it
is the spread original input row with a reason text and a missing-field
list. -/
theorem c8_remark_record_content (o : Nat → InsertOutcome) (req : List String)
    (mF : RawRow → JRow) (acc : EngineAcc) (row : RawRow) :
    ∃ rec : RemarkRecord,
      (processRow o req mF acc row).csvRemark = acc.csvRemark ++ [rec] ∧
      ((requiredMissing req (mF (normalizeCSVRow row)) = [] ∧
          o acc.adapterCalls.length = InsertOutcome.success) →
        rec = ⟨mF (normalizeCSVRow row), none, none⟩) ∧
      (¬(requiredMissing req (mF (normalizeCSVRow row)) = [] ∧
          o acc.adapterCalls.length = InsertOutcome.success) →
        ∃ reason mf, rec = ⟨rawToJVal row, some reason, some mf⟩) := by
  by_cases hm : (requiredMissing req (mF (normalizeCSVRow row))).length > 0
  · refine ⟨⟨rawToJVal row,
      some (missingReason (requiredMissing req (mF (normalizeCSVRow row)))),
      some (requiredMissing req (mF (normalizeCSVRow row)))⟩,
      by simp [processRow, hm], ?_, fun _ => ⟨_, _, rfl⟩⟩
    rintro ⟨h1, -⟩
    rw [h1] at hm
    simp at hm
  · have hnil : requiredMissing req (mF (normalizeCSVRow row)) = [] :=
      List.length_eq_zero.mp (Nat.eq_zero_of_not_pos hm)
    cases ho : o acc.adapterCalls.length with
    | success =>
        refine ⟨⟨mF (normalizeCSVRow row), none, none⟩,
          by simp [processRow, hm, ho], fun _ => rfl, ?_⟩
        intro hcon
        exact absurd ⟨hnil, rfl⟩ hcon
    | failure reason =>
        refine ⟨⟨rawToJVal row, some reason, some []⟩,
          by simp [processRow, hm, ho], ?_, fun _ => ⟨reason, [], rfl⟩⟩
        rintro ⟨-, h2⟩
        exact absurd h2 (by simp)
    | thrown msg =>
        refine ⟨⟨rawToJVal row, some msg, some []⟩,
          by simp [processRow, hm, ho], ?_, fun _ => ⟨msg, [], rfl⟩⟩
        rintro ⟨-, h2⟩
        exact absurd h2 (by simp)

/-- Witness for the amended C8 at the valid row rowA. -/
theorem c8_remark_record_content_witness :
    ∃ rec : RemarkRecord,
      (processRow oracleOk ordersRequired mapCSVToSchema EngineAcc.init rowA).csvRemark
        = EngineAcc.init.csvRemark ++ [rec] ∧
      ((requiredMissing ordersRequired (mapCSVToSchema (normalizeCSVRow rowA)) = [] ∧
          oracleOk EngineAcc.init.adapterCalls.length = InsertOutcome.success) →
        rec = ⟨mapCSVToSchema (normalizeCSVRow rowA), none, none⟩) ∧
      (¬(requiredMissing ordersRequired (mapCSVToSchema (normalizeCSVRow rowA)) = [] ∧
          oracleOk EngineAcc.init.adapterCalls.length = InsertOutcome.success) →
        ∃ reason mf, rec = ⟨rawToJVal rowA, some reason, some mf⟩) :=
  c8_remark_record_content oracleOk ordersRequired mapCSVToSchema EngineAcc.init rowA

/-- C9. Numeric coercion failure is inconsistent across the map functions:
for the orders row with quantity "abc" the mapped quantity is the NaN
sentinel (not null), the row passes required-field validation and the
Persistence Adapter is invoked with it, while the lab product map sends the
same non-numeric string to null through its explicit NaN guard. -/
theorem c9_numeric_coercion_inconsistent :
    assocGet (mapCSVToSchema (normalizeCSVRow rowNanQty)) "quantity" = some JVal.nan ∧
    requiredMissing ordersRequired (mapCSVToSchema (normalizeCSVRow rowNanQty)) = [] ∧
    (processRow oracleOk ordersRequired mapCSVToSchema EngineAcc.init rowNanQty).adapterCalls
      = [mapCSVToSchema (normalizeCSVRow rowNanQty)] ∧
    assocGet (mapCSVToLabProductSchema (normalizeCSVRow labRowAbc)) "incisive_id"
      = some JVal.null := by decide

/-- C1, evaluated at the failing input: on a two-row file whose inserts all
succeed, a failing merge procedure aborts the run, yet the staging table
keeps the 2 committed rows (the row-loop transaction was committed before
the merge, which runs on a separate connection), rather than the 0 rows the
claim demands; the file is indeed not moved (the object store is
unchanged). -/
theorem c1_merge_failure_staging_committed :
    (processOrdersFile oracleOk true "T1" pathsA "a.csv" worldTwoRows).1
      = Except.error "merge failed" ∧
    (processOrdersFile oracleOk true "T1" pathsA "a.csv" worldTwoRows).2.stage.length = 2 ∧
    (processOrdersFile oracleOk true "T1" pathsA "a.csv" worldTwoRows).2.s3
      = worldTwoRows.s3 := by decide

/-- C2, evaluated at a concrete store: the generic move-to-processed copies
the object to the timestamp-prefixed key under the processed prefix and
then deletes the original, so after the move the source key resolves to
nothing (deletion is not a no-op). -/
theorem c2_move_to_processed_deletes_source :
    moveToProcessed "T1" pathsA "a.csv" worldTwoRows.s3
      = Except.ok ("orders/processed/T1_a.csv",
          [("orders/processed/T1_a.csv", S3Content.csv [rowA, rowB])]) ∧
    (moveToProcessed "T1" pathsA "a.csv" worldTwoRows.s3).map
        (fun x => assocGet x.2 (pathsA.source ++ "a.csv"))
      = Except.ok none := by decide

/-- C6. A file that exists and parses to zero rows short-circuits: the
result is the distinct skipped record (success, zero counts, skipped flag)
and the world is returned unchanged — no transaction, no truncate, no move
to processed and no remark upload. -/
theorem c6_empty_file_skipped_no_writes (o : Nat → InsertOutcome) (b : Bool) (ts : String)
    (p : Paths) (fileName : String) (w : OrdersWorld)
    (hex : checkFileExists w.s3 (p.source ++ fileName) = true)
    (hc : assocGet w.s3 (p.source ++ fileName) = some (S3Content.csv [])) :
    processOrdersFile o b ts p fileName w = (Except.ok ⟨true, 0, 0, 0, true⟩, w) := by
  simp [processOrdersFile, hex, hc, parseModel]

/-- Witness for C6 at the concrete empty-file store. -/
theorem c6_empty_file_skipped_no_writes_witness :
    checkFileExists worldEmptyCsv.s3 (pathsA.source ++ "a.csv") = true ∧
    assocGet worldEmptyCsv.s3 (pathsA.source ++ "a.csv") = some (S3Content.csv []) ∧
    processOrdersFile oracleOk false "T1" pathsA "a.csv" worldEmptyCsv
      = (Except.ok ⟨true, 0, 0, 0, true⟩, worldEmptyCsv) :=
  ⟨by decide, by decide,
    c6_empty_file_skipped_no_writes oracleOk false "T1" pathsA "a.csv" worldEmptyCsv
      (by decide) (by decide)⟩

/-- C7. For a run that completes successfully on a non-empty file, the
remark artifact sits at the key built from the logs prefix, the original
file name and the run timestamp exactly when errorCount is positive; with
zero errors nothing is uploaded at that key. -/
theorem c7_remark_upload_iff_errors (o : Nat → InsertOutcome) (b : Bool) (ts : String)
    (p : Paths) (fileName : String) (w wfin : OrdersWorld) (r : FileResult)
    (hrun : processOrdersFile o b ts p fileName w = (Except.ok r, wfin))
    (hns : r.skipped = false)
    (hfresh : assocGet w.s3 (p.logs ++ fileName ++ "_" ++ ts) = none)
    (hne : p.processed ++ ts ++ "_" ++ fileName ≠ p.logs ++ fileName ++ "_" ++ ts) :
    (0 < r.errorCount →
      ∃ recs, assocGet wfin.s3 (p.logs ++ fileName ++ "_" ++ ts)
        = some (S3Content.remark recs)) ∧
    (r.errorCount = 0 →
      assocGet wfin.s3 (p.logs ++ fileName ++ "_" ++ ts) = none) := by
  simp only [processOrdersFile] at hrun
  split at hrun
  · simp at hrun
  · split at hrun
    · simp at hrun
    · next content hcontent =>
        split at hrun
        · simp only [Prod.mk.injEq, Except.ok.injEq] at hrun
          obtain ⟨hr1, -⟩ := hrun
          rw [← hr1] at hns
          simp at hns
        · split at hrun
          · simp at hrun
          · split at hrun
            · simp at hrun
            · next dk s3Moved hmove =>
                split at hrun
                · next herr =>
                    simp only [Prod.mk.injEq, Except.ok.injEq] at hrun
                    obtain ⟨hr1, hw1⟩ := hrun
                    have herrc : r.errorCount
                        = (processRows o ordersRequired mapCSVToSchema
                            (parseModel content)).errorCount := by
                      rw [← hr1]
                    constructor
                    · intro _
                      refine ⟨(processRows o ordersRequired mapCSVToSchema
                        (parseModel content)).csvRemark, ?_⟩
                      rw [← hw1]
                      exact assocGet_setEntry_self _ _ _
                    · intro h0
                      rw [herrc] at h0
                      omega
                · next herr =>
                    simp only [Prod.mk.injEq, Except.ok.injEq] at hrun
                    obtain ⟨hr1, hw1⟩ := hrun
                    have herrc : r.errorCount
                        = (processRows o ordersRequired mapCSVToSchema
                            (parseModel content)).errorCount := by
                      rw [← hr1]
                    constructor
                    · intro hpos
                      rw [herrc] at hpos
                      omega
                    · intro _
                      rw [← hw1]
                      show assocGet s3Moved (p.logs ++ fileName ++ "_" ++ ts) = none
                      simp only [moveToProcessed] at hmove
                      split at hmove
                      · simp at hmove
                      · next c hc2 =>
                          simp only [Except.ok.injEq, Prod.mk.injEq] at hmove
                          obtain ⟨-, hm2⟩ := hmove
                          rw [← hm2]
                          refine assocGet_filter_none _ _ _ ?_
                          rw [assocGet_setEntry_ne _ _ _ _ (fun hcc => hne hcc.symm)]
                          exact hfresh

/-- Witness for C7 at the store whose file has one valid and one invalid
row (errorCount 1). -/
theorem c7_remark_upload_iff_errors_witness :
    (0 < (⟨true, 2, 1, 1, false⟩ : FileResult).errorCount →
      ∃ recs, assocGet (processOrdersFile oracleOk false "T1" pathsA "a.csv" worldOneBad).2.s3
          (pathsA.logs ++ "a.csv" ++ "_" ++ "T1")
        = some (S3Content.remark recs)) ∧
    ((⟨true, 2, 1, 1, false⟩ : FileResult).errorCount = 0 →
      assocGet (processOrdersFile oracleOk false "T1" pathsA "a.csv" worldOneBad).2.s3
          (pathsA.logs ++ "a.csv" ++ "_" ++ "T1")
        = none) :=
  c7_remark_upload_iff_errors oracleOk false "T1" pathsA "a.csv" worldOneBad
    (processOrdersFile oracleOk false "T1" pathsA "a.csv" worldOneBad).2
    ⟨true, 2, 1, 1, false⟩ (by decide) (by decide) (by decide) (by decide)

end IncisiveETL
